import Mathlib

/-!
# Verification of the auto-repair pipeline

A shallow embedding, in Lean 4, of the core logic of the repository
(`nodes/fixer_node.py`, `nodes/testing_node.py`, `main_graph.py`,
`sre_validation_system.py`), together with theorems settling the frozen
claims about it.

Modelling conventions:
* Python `dict`s (insertion ordered) are association lists
  `List (String × α)`; `dictGet`/`dictSet`/`dictKeys` mirror
  `d.get`, `d[k] = v`, and key iteration.
* The filesystem is an association list from absolute path to
  `(content, mtime)`.  `shutil.copy2` copies content and mtime;
  `open(p, "w").write(c)` sets the content and stamps the current time,
  which the embedding threads as an explicit `ts : Nat` parameter
  (the code reads `datetime.now()` / `os.path.getmtime` at write time).
* `hashlib.md5(...).hexdigest()` is threaded as an abstract parameter
  `md5 : String → String`: none of the claims depends on the digest
  algorithm, only on the fact that a checksum is (or is not) recomputed
  from a given content string.
* Code paths that raise (`shutil.copy2` on a missing file, a `KeyError`
  on a dict lookup) are modelled with `Except String`.
* The regular expressions of `fixer_node.py` are embedded as explicit
  character-level scanners over ASCII text (Python's `\w`, `\s`, `\d`
  restricted to ASCII, which covers the Java sources the tool targets).
-/

namespace AutoFix

/-- `d.get(k)` on a Python dict modelled as an insertion-ordered
association list: the first binding of `k`, if any. -/
def dictGet {α : Type} (m : List (String × α)) (k : String) : Option α :=
  match m with
  | [] => none
  | p :: rest => if p.1 = k then some p.2 else dictGet rest k

/-- `d[k] = v` on a Python dict: overwrite the binding in place if `k` is
already a key (keeping its position), otherwise append it at the end. -/
def dictSet {α : Type} (m : List (String × α)) (k : String) (v : α) :
    List (String × α) :=
  match m with
  | [] => [(k, v)]
  | p :: rest => if p.1 = k then (k, v) :: rest else p :: dictSet rest k v

/-- The keys of a Python dict, in insertion order. -/
def dictKeys {α : Type} (m : List (String × α)) : List String :=
  m.map (fun p => p.1)

theorem dictGet_dictSet_self {α : Type} (m : List (String × α)) (k : String) (v : α) :
    dictGet (dictSet m k v) k = some v := by
  induction m with
  | nil => simp [dictSet, dictGet]
  | cons p m ih =>
    by_cases hp : p.1 = k
    · simp [dictSet, hp, dictGet]
    · simp [dictSet, hp, dictGet, ih]

theorem dictGet_dictSet_ne {α : Type} (m : List (String × α)) (k k' : String) (v : α)
    (h : k' ≠ k) : dictGet (dictSet m k v) k' = dictGet m k' := by
  have hkk : ¬ (k = k') := fun hh => h hh.symm
  induction m with
  | nil => simp [dictSet, dictGet, hkk]
  | cons p m ih =>
    by_cases hp : p.1 = k
    · have hpk' : ¬ (p.1 = k') := by rw [hp]; exact hkk
      simp [dictSet, hp, dictGet, hkk, hpk']
    · simp [dictSet, hp, dictGet, ih]

theorem dictKeys_dictSet_of_mem {α : Type} (m : List (String × α)) (k : String) (v : α)
    (h : k ∈ dictKeys m) : dictKeys (dictSet m k v) = dictKeys m := by
  induction m with
  | nil => simp [dictKeys] at h
  | cons p m ih =>
    by_cases hp : p.1 = k
    · simp [dictSet, hp, dictKeys]
    · have hm : k ∈ dictKeys m := by
        rcases (by simpa [dictKeys] using h) with h1 | h1
        · exact absurd h1.symm hp
        · simpa [dictKeys] using h1
      have h2 := ih hm
      simp [dictSet, hp, dictKeys] at h2 ⊢
      exact h2

theorem mem_dictKeys_dictSet {α : Type} (m : List (String × α)) (k k' : String) (v : α) :
    k' ∈ dictKeys (dictSet m k v) ↔ k' ∈ dictKeys m ∨ k' = k := by
  induction m with
  | nil => simp [dictSet, dictKeys, eq_comm]
  | cons p m ih =>
    by_cases hp : p.1 = k
    · subst hp
      simp [dictSet, dictKeys]
      tauto
    · simp [dictSet, hp, dictKeys] at ih ⊢
      tauto

theorem dictGet_isSome_of_mem_keys {α : Type} (m : List (String × α)) (k : String)
    (h : k ∈ dictKeys m) : (dictGet m k).isSome := by
  induction m with
  | nil => simp [dictKeys] at h
  | cons p m ih =>
    by_cases hp : p.1 = k
    · simp [dictGet, hp]
    · have hm : k ∈ dictKeys m := by
        rcases (by simpa [dictKeys] using h) with h1 | h1
        · exact absurd h1.symm hp
        · simpa [dictKeys] using h1
      simp [dictGet, hp, ih hm]

theorem mem_keys_of_dictGet_isSome {α : Type} (m : List (String × α)) (k : String)
    (h : (dictGet m k).isSome) : k ∈ dictKeys m := by
  induction m with
  | nil => simp [dictGet] at h
  | cons p m ih =>
    by_cases hp : p.1 = k
    · simp [dictKeys, hp.symm]
    · simp only [dictGet, hp, if_neg] at h
      simp [dictKeys]
      right
      simpa [dictKeys] using ih h

/-! ## Character classes and path helpers (ASCII models of Python's) -/

/-- Python's `\w` (ASCII): letters, digits, underscore. -/
def isWordChar (c : Char) : Bool := c.isAlphanum || c = '_'

/-- Python's `\s` (ASCII): the whitespace characters. -/
def isSpaceChar (c : Char) : Bool :=
  c = ' ' || c = '\t' || c = '\n' || c = '\r' || c = '\x0b' || c = '\x0c'

/-- The character class `[\w\.$]` of `STACK_TRACE_RE`. -/
def isWordDotDollar (c : Char) : Bool := isWordChar c || c = '.' || c = '$'

/-- The character class `[\w\.]` of `IMPORT_RE`. -/
def isWordDot (c : Char) : Bool := isWordChar c || c = '.'

/-- Python's `\d` (ASCII). -/
def isDigitChar (c : Char) : Bool := c.isDigit

/-- Split a character list at every occurrence of `sep` (the semantics of
Python's `str.split(sep)` for a one-character separator, and of
`String.splitOn`, as a structural recursion). -/
def splitChar (sep : Char) : List Char → List (List Char)
  | [] => [[]]
  | c :: rest =>
    let r := splitChar sep rest
    if c = sep then [] :: r
    else
      match r with
      | h :: t => (c :: h) :: t
      | [] => [[c]]

/-- `s.split(sep)` for a one-character separator, as strings. -/
def pySplit (sep : Char) (s : String) : List String :=
  (splitChar sep s.data).map String.mk

/-- Python's `str.strip()` (ASCII whitespace). -/
def pyStrip (s : String) : String :=
  String.mk (((s.data.dropWhile isSpaceChar).reverse.dropWhile isSpaceChar).reverse)

/-- Python's `str.startswith`. -/
def pyStartsWith (s pre : String) : Bool := pre.data.isPrefixOf s.data

/-- Python's `str.endswith`. -/
def pyEndsWith (s suf : String) : Bool := suf.data.reverse.isPrefixOf s.data.reverse

/-- ASCII lower-casing of one character. -/
def asciiLower (c : Char) : Char :=
  if 'A' ≤ c && c ≤ 'Z' then Char.ofNat (c.toNat + 32) else c

/-- Python's `str.lower()` (ASCII). -/
def pyLower (s : String) : String := String.mk (s.data.map asciiLower)

/-- Python's `c in s` for a character. -/
def pyContains (s : String) (c : Char) : Bool := s.data.contains c

/-- `os.path.basename` on a POSIX path: the part after the last `/`. -/
def basename (s : String) : String := (pySplit '/' s).getLastD s

/-- `os.path.splitext(...)[0]` applied to a basename: strip the part from
the last dot on (the filename stem).  `splitext` keeps a leading dot. -/
def stem (s : String) : String :=
  let parts := pySplit '.' s
  match parts with
  | [] => s
  | [_] => s
  | _ =>
    let r := String.intercalate "." parts.dropLast
    if r = "" then s else r

/-!  ## `fixer_node.py` — regular-expression scanners

`STACK_TRACE_RE = re.compile(r"\bat\s+[\w\.$]+\((\w+\.java):\d+\)")` and
`extract_filenames_from_error` returns the *set* of captured groups.

Every quantifier in these patterns ranges over a character class disjoint
from the literal that follows it, so Python's backtracking search agrees
with maximal-munch scanning; the scanners below use maximal munch
(`List.span`). -/

/-- Attempt to match `STACK_TRACE_RE` at the head of `l`, with `prev` the
character before `l` (for the `\b` word boundary).  On success, return the
captured `<Name>.java` group and the remainder of the input. -/
def matchStackFrame (prev : Option Char) (l : List Char) :
    Option (String × List Char) :=
  let boundaryOk := match prev with
    | none => true
    | some c => !(isWordChar c)
  if boundaryOk then
    match l with
    | 'a' :: 't' :: rest =>
      let (sp, r1) := rest.span isSpaceChar
      if sp.isEmpty then none else
      let (wd, r2) := r1.span isWordDotDollar
      if wd.isEmpty then none else
      match r2 with
      | '(' :: r3 =>
        let (w, r4) := r3.span isWordChar
        if w.isEmpty then none else
        match r4 with
        | '.' :: 'j' :: 'a' :: 'v' :: 'a' :: ':' :: r5 =>
          let (d, r6) := r5.span isDigitChar
          if d.isEmpty then none else
          match r6 with
          | ')' :: r7 => some (String.mk (w ++ ['.', 'j', 'a', 'v', 'a']), r7)
          | _ => none
        | _ => none
      | _ => none
    | _ => none
  else none

/-- Scan the whole input for non-overlapping `STACK_TRACE_RE` matches,
left to right (the semantics of `re.findall`). -/
def scanStackFrames (fuel : Nat) (prev : Option Char) (l : List Char) :
    List String :=
  match fuel with
  | 0 => []
  | fuel + 1 =>
    match matchStackFrame prev l with
    | some (w, rest) => w :: scanStackFrames fuel (some ')') rest
    | none =>
      match l with
      | [] => []
      | c :: rest => scanStackFrames fuel (some c) rest

/-- `extract_filenames_from_error`: the set of `<Name>.java` filenames in
stack-trace lines of the error text. -/
def extract_filenames_from_error (error_text : String) : Finset String :=
  (scanStackFrames (error_text.data.length + 1) none error_text.data).toFinset

/-!  `IMPORT_RE = re.compile(r"^import\s+([\w\.]+)\s*;", re.MULTILINE)`.
With `re.MULTILINE`, `^` anchors at each line start, so `findall` is one
attempted match per line, in order. -/

/-- Match `import\s+([\w\.]+)\s*;` against the start of one line. -/
def lineImport (line : String) : Option String :=
  match line.data with
  | 'i' :: 'm' :: 'p' :: 'o' :: 'r' :: 't' :: rest =>
    let (sp, r1) := rest.span isSpaceChar
    if sp.isEmpty then none else
    let (nm, r2) := r1.span isWordDot
    if nm.isEmpty then none else
    let (_, r3) := r2.span isSpaceChar
    match r3 with
    | ';' :: _ => some (String.mk nm)
    | _ => none
  | _ => none

/-- `IMPORT_RE.findall(content)`: the imported symbol of every line that
starts with an import statement, in order. -/
def importsOf (content : String) : List String :=
  (pySplit '\n' content).filterMap lineImport

/-!  `CALL_RE = re.compile(r"new\s+(\w+)\(|(\w+)\.")` and
`called = [c[0] or c[1] for c in CALL_RE.findall(content) if (c[0] or c[1])]`. -/

/-- Attempt to match `CALL_RE` at the head of `l`: first the alternative
`new\s+(\w+)\(`, then `(\w+)\.`. -/
def matchCall (l : List Char) : Option (String × List Char) :=
  let alt1 :=
    match l with
    | 'n' :: 'e' :: 'w' :: rest =>
      let (sp, r1) := rest.span isSpaceChar
      if sp.isEmpty then none else
      let (w, r2) := r1.span isWordChar
      if w.isEmpty then none else
      match r2 with
      | '(' :: r3 => some (String.mk w, r3)
      | _ => none
    | _ => none
  match alt1 with
  | some r => some r
  | none =>
    let (w, r) := l.span isWordChar
    if w.isEmpty then none else
    match r with
    | '.' :: r2 => some (String.mk w, r2)
    | _ => none

/-- Scan the whole input for non-overlapping `CALL_RE` matches. -/
def scanCalls (fuel : Nat) (l : List Char) : List String :=
  match fuel with
  | 0 => []
  | fuel + 1 =>
    match matchCall l with
    | some (w, rest) => w :: scanCalls fuel rest
    | none =>
      match l with
      | [] => []
      | _ :: rest => scanCalls fuel rest

/-- The `called` list of `build_file_entry`. -/
def callsOf (content : String) : List String :=
  scanCalls (content.data.length + 1) content.data

/-!  `CLASS_RE = re.compile(r"\bclass\s+(\w+)")` with `.search`: the first
match anywhere in the content. -/

/-- Attempt to match `\bclass\s+(\w+)` at the head of `l`. -/
def matchClass (prev : Option Char) (l : List Char) : Option String :=
  let boundaryOk := match prev with
    | none => true
    | some c => !(isWordChar c)
  if boundaryOk then
    match l with
    | 'c' :: 'l' :: 'a' :: 's' :: 's' :: rest =>
      let (sp, r1) := rest.span isSpaceChar
      if sp.isEmpty then none else
      let (w, _) := r1.span isWordChar
      if w.isEmpty then none else some (String.mk w)
    | _ => none
  else none

/-- `CLASS_RE.search(content)`: the first matched class name, if any. -/
def searchClass (fuel : Nat) (prev : Option Char) (l : List Char) :
    Option String :=
  match fuel with
  | 0 => none
  | fuel + 1 =>
    match matchClass prev l with
    | some w => some w
    | none =>
      match l with
      | [] => none
      | c :: rest => searchClass fuel (some c) rest

/-- The declared class name of a content string, if `CLASS_RE` matches. -/
def classOf (content : String) : Option String :=
  searchClass (content.data.length + 1) none content.data

/-! ## `fixer_node.py` — File Registry -/

/-- One registry entry, mirroring the dict built by `build_file_entry`. -/
structure FileEntry where
  path : String
  content : String
  className : String
  imports : List String
  calls : List String
  lastModified : Nat
  checksum : String
  deriving DecidableEq, Repr

/-- The registry: Python dict from filename (basename) to entry. -/
abbrev Registry := List (String × FileEntry)

/-- The filesystem: absolute path ↦ (content, mtime). -/
abbrev FS := List (String × (String × Nat))

/-- The content of a file on disk, if it exists. -/
def fsContent (fs : FS) (path : String) : Option String :=
  (dictGet fs path).map (fun p => p.1)

/-- `build_file_entry(file_path)`: read the file and derive every field
from its content.  `none` models the `open` raising when the path does
not exist. -/
def build_file_entry (md5 : String → String) (fs : FS) (file_path : String) :
    Option FileEntry :=
  (dictGet fs file_path).map (fun cm =>
    let content := cm.1
    let class_name := (classOf content).getD (stem (basename file_path))
    { path := file_path
      content := content
      className := class_name
      imports := importsOf content
      calls := callsOf content
      lastModified := cm.2
      checksum := md5 content })

/-- `build_file_index(project_dir)`: one entry per `.java` file found by
the walk, keyed by basename.  The walk itself is filesystem globbing; the
list of java file paths it yields is taken as the argument. -/
def build_file_index (md5 : String → String) (fs : FS)
    (java_paths : List String) : Registry :=
  java_paths.filterMap (fun fp =>
    (build_file_entry md5 fs fp).map (fun e => (basename fp, e)))

/-- `refresh_file_index`: drop entries whose file vanished; for entries
whose mtime changed, re-read and, only if the checksum differs, rebuild
the whole entry. -/
def refresh_file_index (md5 : String → String) (fs : FS) (file_index : Registry) :
    Registry :=
  file_index.filterMap (fun p =>
    let (filename, info) := p
    match dictGet fs info.path with
    | none => none
    | some (content, mtime) =>
      if mtime ≠ info.lastModified then
        if md5 content ≠ info.checksum then
          (build_file_entry md5 fs info.path).map (fun e => (filename, e))
        else some (filename, info)
      else some (filename, info))

/-! ## `fixer_node.py` — Fault Localizer -/

/-- The filename a referenced symbol is looked up under:
`f"{neighbor_class}.java" if not neighbor_class.endswith(".java") else neighbor_class`. -/
def neighborFile (neighbor_class : String) : String :=
  if pyEndsWith neighbor_class ".java" then neighbor_class
  else neighbor_class ++ ".java"

/-- One round of `fan_out`'s loop body: the new frontier collected from
the current frontier's `imports + calls`, keeping only registry members
not yet in `expanded`. -/
def fanOutRound (file_index : Registry) (expanded frontier : Finset String) :
    Finset String :=
  frontier.biUnion (fun fname =>
    match dictGet file_index fname with
    | none => ∅
    | some info =>
      ((info.imports ++ info.calls).map neighborFile).toFinset.filter
        (fun nf => (dictGet file_index nf).isSome = true ∧ nf ∉ expanded))

/-- The `for _ in range(depth)` loop of `fan_out`, carrying
`(expanded, frontier)`. -/
def fanOutAux (file_index : Registry) :
    Nat → Finset String → Finset String → Finset String
  | 0, expanded, _ => expanded
  | depth + 1, expanded, frontier =>
    let next_frontier := fanOutRound file_index expanded frontier
    fanOutAux file_index depth (expanded ∪ next_frontier) next_frontier

/-- `fan_out(files, file_index, depth)`. -/
def fan_out (files : Finset String) (file_index : Registry) (depth : Nat) :
    Finset String :=
  fanOutAux file_index depth files files

/-- `get_relevant_files(error_text, file_index, depth)`: seed from the
stack trace; fail open to the whole index on an empty seed set; otherwise
fan out and select.  (The Python selection iterates a `set`, whose order
is unspecified; the embedding selects in registry order.) -/
def get_relevant_files (error_text : String) (file_index : Registry)
    (depth : Nat) : Registry :=
  let initial := extract_filenames_from_error error_text
  if initial = ∅ then file_index
  else
    let selected_names := fan_out initial file_index depth
    file_index.filter (fun p => p.1 ∈ selected_names)

/-! ## `fixer_node.py` — Patch Applicator -/

/-- The part of a marker line after the first `:`
(`line.split(":", 1)[-1]`). -/
def afterFirstColon (line : String) : String :=
  String.mk ((line.data.dropWhile (fun c => c ≠ ':')).drop 1)

/-- The pending filename taken from a marker line:
`line.split(":", 1)[-1].strip() if ":" in line else line`. -/
def markerName (line : String) : String :=
  if pyContains line ':' then pyStrip (afterFirstColon line) else line

/-- `create_backup`'s backup path `f"{file_path}.backup_{timestamp}"`
(the embedding renders the timestamp as a `Nat`). -/
def backupName (file_path : String) (ts : Nat) : String :=
  file_path ++ ".backup_" ++ toString ts

/-- The mutable state threaded through `apply_fixes_to_code`:
the registry (`file_index`, mutated in place by the Python code) and the
filesystem. -/
structure ApplyState where
  fileIndex : Registry
  fs : FS
  deriving DecidableEq, Repr

theorem length_dropWhile_le {α : Type} (p : α → Bool) (l : List α) :
    (l.dropWhile p).length ≤ l.length := by
  induction l with
  | nil => simp
  | cons a l ih =>
    by_cases h : p a
    · simp only [List.dropWhile_cons, h, if_true]
      exact Nat.le_succ_of_le ih
    · simp [List.dropWhile_cons, h]

/-- The `while i < len(response_lines)` loop of `apply_fixes_to_code`,
as a recursion over the remaining lines, carrying `current_filename` and
the mutable state.  A marker line (starting with `FILENAME:` or ending in
`.java`) records a pending filename; a fence line opens a code block that
consumes every following line until a closing fence (or the end of the
response); a matched block snapshots the on-disk file to a timestamped
backup, overwrites it, and patches the registry entry in place with the
new content, mtime and checksum. -/
def applyLoop (md5 : String → String) (source_files : Registry) (ts : Nat) :
    Nat → List String → Option String → ApplyState → Except String ApplyState
  | 0, _, _, st => .ok st
  | _ + 1, [], _, st => .ok st
  | fuel + 1, l :: rest, current_filename, st =>
    let line := pyStrip l
    if pyStartsWith line "FILENAME:" || pyEndsWith line ".java" then
      applyLoop md5 source_files ts fuel rest (some (markerName line)) st
    else if pyStartsWith line "```" then
      match current_filename with
      | none => applyLoop md5 source_files ts fuel rest none st
      | some fname =>
        let suggested := pyLower (basename fname)
        let matched_key :=
          source_files.find? (fun p => pyLower (basename p.1) == suggested)
        let code_lines := rest.takeWhile (fun l2 => !(pyStartsWith (pyStrip l2) "```"))
        let rest' := rest.dropWhile (fun l2 => !(pyStartsWith (pyStrip l2) "```"))
        let fixed_code := String.intercalate "\n" code_lines
        match matched_key with
        | some ke =>
          match dictGet st.fs ke.2.path with
          | none => .error "FileNotFoundError"
          | some cm =>
            let fs1 := dictSet st.fs (backupName ke.2.path ts) cm
            let fs2 := dictSet fs1 ke.2.path (fixed_code, ts)
            match dictGet st.fileIndex ke.1 with
            | none => .error "KeyError"
            | some old =>
              applyLoop md5 source_files ts fuel (rest'.drop 1) none
                ⟨dictSet st.fileIndex ke.1
                  { old with content := fixed_code, lastModified := ts,
                             checksum := md5 fixed_code }, fs2⟩
        | none => applyLoop md5 source_files ts fuel (rest'.drop 1) none st
    else
      applyLoop md5 source_files ts fuel rest current_filename st

/-- `apply_fixes_to_code(response_text, source_files, file_index)`:
split the response into lines and run the loop with no pending filename.
Every loop step consumes at least one line, so `lines.length` steps of
fuel always suffice. -/
def apply_fixes_to_code (md5 : String → String) (response_text : String)
    (source_files : Registry) (file_index : Registry) (fs : FS) (ts : Nat) :
    Except String ApplyState :=
  let lines := pySplit '\n' response_text
  applyLoop md5 source_files ts lines.length lines none ⟨file_index, fs⟩

/-- One matched patch block: the registry key it matched, the path of the
file it overwrites, and the complete replacement content. -/
structure PatchAct where
  key : String
  path : String
  content : String
  deriving DecidableEq, Repr

/-- The sequence of matched patch blocks of a response — the same scan as
`applyLoop`, recording the effects instead of performing them.  It
depends only on the response lines and on `source_files` (which
`apply_fixes_to_code` never mutates), not on the registry or the
filesystem. -/
def patchActions (source_files : Registry) :
    Nat → List String → Option String → List PatchAct
  | 0, _, _ => []
  | _ + 1, [], _ => []
  | fuel + 1, l :: rest, current_filename =>
    let line := pyStrip l
    if pyStartsWith line "FILENAME:" || pyEndsWith line ".java" then
      patchActions source_files fuel rest (some (markerName line))
    else if pyStartsWith line "```" then
      match current_filename with
      | none => patchActions source_files fuel rest none
      | some fname =>
        let suggested := pyLower (basename fname)
        let matched_key :=
          source_files.find? (fun p => pyLower (basename p.1) == suggested)
        let code_lines := rest.takeWhile (fun l2 => !(pyStartsWith (pyStrip l2) "```"))
        let rest' := rest.dropWhile (fun l2 => !(pyStartsWith (pyStrip l2) "```"))
        let fixed_code := String.intercalate "\n" code_lines
        match matched_key with
        | some ke => ⟨ke.1, ke.2.path, fixed_code⟩ ::
            patchActions source_files fuel (rest'.drop 1) none
        | none => patchActions source_files fuel (rest'.drop 1) none
    else
      patchActions source_files fuel rest current_filename

/-- The effect of one matched patch block on the state: backup, write,
registry patch. -/
def execAct (md5 : String → String) (ts : Nat) (st : ApplyState)
    (a : PatchAct) : Except String ApplyState :=
  match dictGet st.fs a.path with
  | none => .error "FileNotFoundError"
  | some cm =>
    let fs1 := dictSet st.fs (backupName a.path ts) cm
    let fs2 := dictSet fs1 a.path (a.content, ts)
    match dictGet st.fileIndex a.key with
    | none => .error "KeyError"
    | some old =>
      .ok ⟨dictSet st.fileIndex a.key
        { old with content := a.content, lastModified := ts,
                   checksum := md5 a.content }, fs2⟩

/-- Execute a sequence of patch blocks in order. -/
def execActs (md5 : String → String) (ts : Nat) :
    List PatchAct → ApplyState → Except String ApplyState
  | [], st => .ok st
  | a :: rest, st =>
    match execAct md5 ts st a with
    | .error e => .error e
    | .ok st' => execActs md5 ts rest st'

/-- `apply_fixes_to_code`'s loop is the execution of its matched patch
blocks: the scan that decides which blocks match depends only on the
response lines and `source_files`, never on the mutated registry or the
filesystem. -/
theorem applyLoop_eq_execActs (md5 : String → String) (src : Registry) (ts : Nat) :
    ∀ (fuel : Nat) (lines : List String) (cur : Option String) (st : ApplyState),
    applyLoop md5 src ts fuel lines cur st =
      execActs md5 ts (patchActions src fuel lines cur) st := by
  intro fuel
  induction fuel with
  | zero => intro lines cur st; rfl
  | succ fuel ih =>
    intro lines cur st
    match lines with
    | [] => rfl
    | l :: rest =>
      simp only [applyLoop, patchActions]
      by_cases h1 : (pyStartsWith (pyStrip l) "FILENAME:" || pyEndsWith (pyStrip l) ".java") = true
      · rw [if_pos h1, if_pos h1, ih]
      · rw [if_neg h1, if_neg h1]
        by_cases h2 : pyStartsWith (pyStrip l) "```" = true
        · rw [if_pos h2, if_pos h2]
          cases cur with
          | none => exact ih rest none st
          | some fname =>
            cases hfind : src.find?
                (fun p => pyLower (basename p.1) == pyLower (basename fname)) with
            | none => simp only [hfind, ih, execActs]
            | some ke =>
              simp only [hfind]
              cases hfs : dictGet st.fs ke.2.path with
              | none => simp only [hfs, execActs, execAct]
              | some cm =>
                simp only [hfs]
                cases hidx : dictGet st.fileIndex ke.1 with
                | none => simp only [hidx, execActs, execAct, hfs]
                | some old => simp only [hidx, execActs, execAct, hfs, ih]
        · rw [if_neg h2, if_neg h2, ih]

/-- Every matched patch block targets an entry of `source_files`: its key
and path are the key and path of a working-set entry. -/
theorem patchActions_mem (src : Registry) :
    ∀ (fuel : Nat) (lines : List String) (cur : Option String),
    ∀ a ∈ patchActions src fuel lines cur,
    ∃ ke ∈ src, a.key = ke.1 ∧ a.path = ke.2.path := by
  intro fuel
  induction fuel with
  | zero => intro lines cur a ha; simp [patchActions] at ha
  | succ fuel ih =>
    intro lines cur a ha
    match lines with
    | [] => simp [patchActions] at ha
    | l :: rest =>
      simp only [patchActions] at ha
      by_cases h1 : (pyStartsWith (pyStrip l) "FILENAME:" || pyEndsWith (pyStrip l) ".java") = true
      · rw [if_pos h1] at ha; exact ih _ _ a ha
      · rw [if_neg h1] at ha
        by_cases h2 : pyStartsWith (pyStrip l) "```" = true
        · rw [if_pos h2] at ha
          cases cur with
          | none => exact ih _ _ a ha
          | some fname =>
            dsimp only at ha
            cases hfind : src.find?
                (fun p => pyLower (basename p.1) == pyLower (basename fname)) with
            | none => rw [hfind] at ha; exact ih _ _ a ha
            | some ke =>
              rw [hfind] at ha
              rcases List.mem_cons.mp ha with hh | hh
              · exact ⟨ke, List.mem_of_find?_eq_some hfind, by simp [hh]⟩
              · exact ih _ _ a hh
        · rw [if_neg h2] at ha; exact ih _ _ a ha

/-- Executing patch blocks whose keys are registry keys and whose paths
are on disk never raises; it preserves the registry's key list, never
deletes a file, and the only files it can create are the timestamped
backups of the blocks' own paths. -/
theorem execActs_ok (md5 : String → String) (ts : Nat) :
    ∀ (acts : List PatchAct) (st : ApplyState),
    (∀ a ∈ acts, a.key ∈ dictKeys st.fileIndex ∧ a.path ∈ dictKeys st.fs) →
    ∃ st', execActs md5 ts acts st = .ok st' ∧
      dictKeys st'.fileIndex = dictKeys st.fileIndex ∧
      (∀ p ∈ dictKeys st.fs, p ∈ dictKeys st'.fs) ∧
      (∀ p ∈ dictKeys st'.fs,
        p ∈ dictKeys st.fs ∨ ∃ a ∈ acts, p = backupName a.path ts) := by
  intro acts
  induction acts with
  | nil =>
    intro st _
    exact ⟨st, rfl, rfl, fun p hp => hp, fun p hp => Or.inl hp⟩
  | cons a rest ih =>
    intro st h
    obtain ⟨hkey, hpath⟩ := h a (List.mem_cons_self a rest)
    obtain ⟨cm, hcm⟩ := Option.isSome_iff_exists.mp
      (dictGet_isSome_of_mem_keys _ _ hpath)
    obtain ⟨old, hold⟩ := Option.isSome_iff_exists.mp
      (dictGet_isSome_of_mem_keys _ _ hkey)
    refine ?_
    have hstep : execAct md5 ts st a = .ok
        ⟨dictSet st.fileIndex a.key
          { old with content := a.content, lastModified := ts,
                     checksum := md5 a.content },
         dictSet (dictSet st.fs (backupName a.path ts) cm) a.path
           (a.content, ts)⟩ := by
      simp [execAct, hcm, hold]
    have hkeys1 : dictKeys (dictSet st.fileIndex a.key
        { old with content := a.content, lastModified := ts,
                   checksum := md5 a.content }) = dictKeys st.fileIndex :=
      dictKeys_dictSet_of_mem _ _ _ hkey
    have hfsgrow : ∀ p ∈ dictKeys st.fs,
        p ∈ dictKeys (dictSet (dictSet st.fs (backupName a.path ts) cm)
          a.path (a.content, ts)) := by
      intro p hp
      rw [mem_dictKeys_dictSet]
      exact Or.inl ((mem_dictKeys_dictSet _ _ _ _).mpr (Or.inl hp))
    have hready : ∀ b ∈ rest,
        b.key ∈ dictKeys (dictSet st.fileIndex a.key
          { old with content := a.content, lastModified := ts,
                     checksum := md5 a.content }) ∧
        b.path ∈ dictKeys (dictSet (dictSet st.fs (backupName a.path ts) cm)
          a.path (a.content, ts)) := by
      intro b hb
      obtain ⟨hk, hp⟩ := h b (List.mem_cons_of_mem a hb)
      exact ⟨hkeys1 ▸ hk, hfsgrow _ hp⟩
    obtain ⟨st', hrun, hk', hgrow', hnew'⟩ :=
      ih ⟨dictSet st.fileIndex a.key
            { old with content := a.content, lastModified := ts,
                       checksum := md5 a.content },
          dictSet (dictSet st.fs (backupName a.path ts) cm) a.path
            (a.content, ts)⟩ hready
    refine ⟨st', ?_, by rw [hk', hkeys1], ?_, ?_⟩
    · simp [execActs, hstep, hrun]
    · intro p hp
      exact hgrow' p (hfsgrow p hp)
    · intro p hp
      rcases hnew' p hp with hold2 | ⟨b, hb, hbp⟩
      · rcases (mem_dictKeys_dictSet _ _ _ _).mp hold2 with h2 | h2
        · rcases (mem_dictKeys_dictSet _ _ _ _).mp h2 with h3 | h3
          · exact Or.inl h3
          · exact Or.inr ⟨a, List.mem_cons_self a rest, h3⟩
        · exact Or.inl (h2 ▸ hpath)
      · exact Or.inr ⟨b, List.mem_cons_of_mem a hb, hbp⟩

/-- The content the last patch block targeting path `p` would write. -/
def lastWrite (acts : List PatchAct) (p : String) : Option String :=
  match acts with
  | [] => none
  | a :: rest =>
    match lastWrite rest p with
    | some c => some c
    | none => if a.path = p then some a.content else none

/-- The content the last patch block updating registry key `k` carries. -/
def lastUpd (acts : List PatchAct) (k : String) : Option String :=
  match acts with
  | [] => none
  | a :: rest =>
    match lastUpd rest k with
    | some c => some c
    | none => if a.key = k then some a.content else none

theorem lastWrite_mem (acts : List PatchAct) (p : String) (c : String)
    (h : lastWrite acts p = some c) : ∃ a ∈ acts, a.path = p := by
  induction acts with
  | nil => simp [lastWrite] at h
  | cons a rest ih =>
    simp only [lastWrite] at h
    cases hr : lastWrite rest p with
    | some c' =>
      rw [hr] at h
      injection h with hcc
      subst hcc
      obtain ⟨b, hb, hbp⟩ := ih hr
      exact ⟨b, List.mem_cons_of_mem a hb, hbp⟩
    | none =>
      rw [hr] at h
      by_cases hp : a.path = p
      · exact ⟨a, List.mem_cons_self a rest, hp⟩
      · simp [hp] at h

/-- After executing a block sequence, a path that is not one of the run's
backup targets holds the last content written to it by the run, or its
previous file if no block wrote it. -/
theorem execActs_fs_char (md5 : String → String) (ts : Nat) :
    ∀ (acts : List PatchAct) (st st' : ApplyState),
    execActs md5 ts acts st = .ok st' →
    ∀ p, (∀ a ∈ acts, p ≠ backupName a.path ts) →
    dictGet st'.fs p =
      match lastWrite acts p with
      | some c => some (c, ts)
      | none => dictGet st.fs p := by
  intro acts
  induction acts with
  | nil =>
    intro st st' hrun p _
    simp only [execActs] at hrun
    cases hrun
    simp [lastWrite]
  | cons a rest ih =>
    intro st st' hrun p hnb
    simp only [execActs] at hrun
    cases hstep : execAct md5 ts st a with
    | error e => rw [hstep] at hrun; cases hrun
    | ok st1 =>
      rw [hstep] at hrun
      have hp_nb : p ≠ backupName a.path ts := hnb a (List.mem_cons_self a rest)
      have hst1fs : dictGet st1.fs p =
          if a.path = p then some (a.content, ts) else dictGet st.fs p := by
        simp only [execAct] at hstep
        cases hcm : dictGet st.fs a.path with
        | none => rw [hcm] at hstep; cases hstep
        | some cm =>
          rw [hcm] at hstep
          cases hold : dictGet st.fileIndex a.key with
          | none => rw [hold] at hstep; cases hstep
          | some old =>
            rw [hold] at hstep
            cases hstep
            by_cases hap : a.path = p
            · subst hap
              simp [dictGet_dictSet_self]
            · have h1 : p ≠ a.path := fun hh => hap hh.symm
              simp only [if_neg hap]
              rw [dictGet_dictSet_ne _ _ _ _ h1,
                dictGet_dictSet_ne _ _ _ _ hp_nb]
      have hrest := ih st1 st' hrun p
        (fun b hb => hnb b (List.mem_cons_of_mem a hb))
      rw [hrest]
      simp only [lastWrite]
      cases hr : lastWrite rest p with
      | some c => rfl
      | none =>
        rw [hst1fs]
        by_cases hap : a.path = p <;> simp [hap]

/-- After executing a block sequence, the registry entry at key `k` is its
previous entry with content, mtime and checksum replaced from the last
block updating `k` — all other fields (`imports`, `calls`, the declared
class) are retained, not rebuilt. -/
theorem execActs_idx_char (md5 : String → String) (ts : Nat) :
    ∀ (acts : List PatchAct) (st st' : ApplyState),
    execActs md5 ts acts st = .ok st' →
    ∀ k, dictGet st'.fileIndex k =
      match lastUpd acts k with
      | some c => (dictGet st.fileIndex k).map (fun old =>
          { old with content := c, lastModified := ts, checksum := md5 c })
      | none => dictGet st.fileIndex k := by
  intro acts
  induction acts with
  | nil =>
    intro st st' hrun k
    simp only [execActs] at hrun
    cases hrun
    simp [lastUpd]
  | cons a rest ih =>
    intro st st' hrun k
    simp only [execActs] at hrun
    cases hstep : execAct md5 ts st a with
    | error e => rw [hstep] at hrun; cases hrun
    | ok st1 =>
      rw [hstep] at hrun
      simp only [execAct] at hstep
      cases hcm : dictGet st.fs a.path with
      | none => rw [hcm] at hstep; cases hstep
      | some cm =>
        rw [hcm] at hstep
        cases hold : dictGet st.fileIndex a.key with
        | none => rw [hold] at hstep; cases hstep
        | some old =>
          rw [hold] at hstep
          cases hstep
          have hrest := ih _ st' hrun k
          rw [hrest]
          simp only [lastUpd]
          cases hr : lastUpd rest k with
          | some c =>
            by_cases hak : a.key = k
            · subst hak
              simp [dictGet_dictSet_self, hold]
            · have h1 : k ≠ a.key := fun hh => hak hh.symm
              simp [dictGet_dictSet_ne _ _ _ _ h1]
          | none =>
            by_cases hak : a.key = k
            · subst hak
              simp [dictGet_dictSet_self, hold]
            · have h1 : k ≠ a.key := fun hh => hak hh.symm
              simp [hak, dictGet_dictSet_ne _ _ _ _ h1]

deriving instance DecidableEq for Except

/-! ## Session state and the fixer node (`fixer_node.py` / `main_graph.py`)

The LangGraph session state is a dict; the embedding keeps the fields the
core logic reads or writes.  Pure prompt/VCS glue fields (`repo_url`,
`branch_name`, `commit_message`, `local_repo_path`, `original_code`,
`fixed_code`, `springboot_path`) carry no logic and are omitted. -/

structure SessionState where
  file_index : Option Registry
  relevant_files : Registry
  original_code_backup : Option (List (String × String))
  original_code_path_map : Option (List (String × String))
  test_failure_reason : Option String
  retries : Nat
  decision : Option String
  detailed_report : Option String
  recommendations : Option (List String)
  failure_reasons : Option (List String)
  original_error : String
  deriving DecidableEq, Repr

/-- `error_log[-5000:]`: the most recent 5000 characters. -/
def lastChars (n : Nat) (s : String) : String :=
  String.mk (s.data.drop (s.data.length - n))

/-- The `extra_note` the fixer prepends to its prompt when a previous fix
was rejected: the feedback context threaded from validation. -/
def extra_note (st : SessionState) : String :=
  match st.test_failure_reason with
  | some r =>
    "\nNOTE FROM VALIDATION AGENT:Previous fix was rejected during automated testing.You MUST address this feedback.\n"
      ++ r ++ "\n"
  | none => ""

/-- `node_fixer(state)`, from the point where the error log has been read
(`error_log`) and the project walk has yielded the `.java` paths
(`java_paths`); the oracle's reply is `response_text`.  Mirrors the
statement order of the source: build or refresh the index, select the
relevant files, apply the fixes (mutating `file_index` in place), and
only then capture `original_code_backup` / `original_code_path_map` from
`file_index` if the state does not already hold them. -/
def node_fixer (md5 : String → String) (response_text error_log : String)
    (java_paths : List String) (ts : Nat) (st : SessionState) (fs : FS) :
    Except String (SessionState × FS) :=
  let error_log := lastChars 5000 error_log
  let file_index :=
    match st.file_index with
    | none => build_file_index md5 fs java_paths
    | some idx => refresh_file_index md5 fs idx
  let relevant_files := get_relevant_files error_log file_index 2
  match apply_fixes_to_code md5 response_text relevant_files file_index fs ts with
  | .error e => .error e
  | .ok res =>
    let file_index := res.fileIndex
    let bp : Option (List (String × String)) × Option (List (String × String)) :=
      match st.original_code_backup with
      | some b => (some b, st.original_code_path_map)
      | none =>
        (some (file_index.map (fun p => (p.1, p.2.content))),
         some (file_index.map (fun p => (p.1, p.2.path))))
    .ok ({ st with
            file_index := some file_index,
            relevant_files := relevant_files.filterMap (fun p =>
              (dictGet file_index p.1).map (fun e => (p.1, e))),
            original_code_backup := bp.1,
            original_code_path_map := bp.2,
            original_error := error_log }, res.fs)

/-! ## `sre_validation_system.py` — the six-stage validation pipeline

Each stage delegates one query to the external oracle
(`LLMService.invoke_with_json_response`); the oracle and the prompt text
are external collaborators, so a stage's oracle interaction is a
parameter `Except String Obj`: `.ok o` is a parsed JSON object, `.error e`
an exception escaping the call (the `except` arm of the stage).  Parsed
JSON objects are string/list-of-string valued, which covers every field
the code reads. -/

inductive JVal where
  | s (v : String)
  | arr (vs : List String)
  deriving DecidableEq, Repr

abbrev Obj := List (String × JVal)

/-- `o.get(k, dflt)` for a string-valued field. -/
def getStr (o : Obj) (k : String) (dflt : String) : String :=
  match dictGet o k with
  | some (JVal.s v) => v
  | _ => dflt

/-- `o.get(k, [])` for a list-valued field. -/
def getList (o : Obj) (k : String) : List String :=
  match dictGet o k with
  | some (JVal.arr vs) => vs
  | _ => []

/-- The state flowing through the validation workflow
(`SREValidationState`). -/
structure SREState where
  original_code : String
  fixed_code : String
  original_error : String
  change_context : String
  error_analysis : Option Obj
  code_diff_analysis : Option Obj
  logic_validation : Option Obj
  semantic_validation : Option Obj
  security_validation : Option Obj
  decision : Option String
  detailed_report : Option String
  recommendations : Option (List String)
  failure_reasons : Option (List String)
  deriving DecidableEq, Repr

/-- Node 1 (`analyze_error_node`): store the analysis, or an object with
an `error` key if the oracle call raised. -/
def analyze_error_node (o : Except String Obj) (st : SREState) : SREState :=
  match o with
  | .ok analysis => { st with error_analysis := some analysis }
  | .error e => { st with error_analysis := some [("error", JVal.s e)] }

/-- Node 2 (`code_diff_analysis_node`). -/
def code_diff_analysis_node (o : Except String Obj) (st : SREState) : SREState :=
  match o with
  | .ok analysis => { st with code_diff_analysis := some analysis }
  | .error e => { st with code_diff_analysis := some [("error", JVal.s e)] }

/-- Node 3 (`logic_validation_node`). -/
def logic_validation_node (o : Except String Obj) (st : SREState) : SREState :=
  match o with
  | .ok analysis => { st with logic_validation := some analysis }
  | .error e => { st with logic_validation := some [("error", JVal.s e)] }

/-- Node 4 (`semantic_validation_node`). -/
def semantic_validation_node (o : Except String Obj) (st : SREState) : SREState :=
  match o with
  | .ok analysis => { st with semantic_validation := some analysis }
  | .error e => { st with semantic_validation := some [("error", JVal.s e)] }

/-- Node 5 (`security_validation_node`). -/
def security_validation_node (o : Except String Obj) (st : SREState) : SREState :=
  match o with
  | .ok analysis => { st with security_validation := some analysis }
  | .error e => { st with security_validation := some [("error", JVal.s e)] }

/-- Node 6 (`final_decision_node`): aggregate into the final decision,
report, recommendations and failure reasons; on an oracle error, force
`REJECT` with a single system-error failure reason. -/
def final_decision_node (o : Except String Obj) (st : SREState) : SREState :=
  match o with
  | .ok decision =>
    let final_decision := getStr decision "decision" "NEEDS_REVIEW"
    let reasoning := getStr decision "decision_reasoning" "No reasoning provided"
    let recommendations :=
      getList decision "recommended_actions" ++ getList decision "minor_improvements"
    let issues := getList decision "critical_issues"
    let detailed_report :=
      "\nSRE VALIDATION REPORT\n====================\n\nDECISION: "
        ++ final_decision
        ++ "\nREASONING: " ++ reasoning
        ++ "\n\nOVERALL ASSESSMENT: "
        ++ getStr decision "overall_assessment" "No assessment provided"
        ++ "\nDEPLOYMENT RISK: " ++ getStr decision "deployment_risk" "Unknown"
        ++ "\n\nANALYSIS SUMMARY:\n- Error Type: "
        ++ getStr (st.error_analysis.getD []) "error_type" "Unknown"
        ++ "\n- Error Severity: "
        ++ getStr (st.error_analysis.getD []) "severity" "Unknown"
        ++ "\n- Logic Correctness: "
        ++ getStr (st.logic_validation.getD []) "logic_correctness" "Unknown"
        ++ "\n- Security Risk: "
        ++ getStr (st.security_validation.getD []) "risk_level" "Unknown"
        ++ "\n- Code Quality: "
        ++ getStr (st.semantic_validation.getD []) "code_style_compliance" "Unknown"
        ++ "\n"
    { st with decision := some final_decision,
              detailed_report := some detailed_report,
              recommendations := some recommendations,
              failure_reasons := some issues }
  | .error e =>
    { st with decision := some "REJECT",
              detailed_report := some ("Decision process failed: " ++ e),
              recommendations := some ["Manual review required due to system failure"],
              failure_reasons := some ["System error: " ++ e] }

/-- The six oracle interactions of one workflow run, one per stage. -/
structure OracleRun where
  analyze_error : Except String Obj
  analyze_code_diff : Except String Obj
  validate_logic : Except String Obj
  validate_semantics : Except String Obj
  validate_security : Except String Obj
  make_decision : Except String Obj

/-- `validate_code_with_llm`: run the six stages strictly in sequence on
the initial state built from the four inputs. -/
def validate_code_with_llm (oracle : OracleRun)
    (original_code fixed_code original_error change_context : String) :
    SREState :=
  let init : SREState :=
    { original_code := original_code, fixed_code := fixed_code,
      original_error := original_error, change_context := change_context,
      error_analysis := none, code_diff_analysis := none,
      logic_validation := none, semantic_validation := none,
      security_validation := none, decision := none,
      detailed_report := none, recommendations := none,
      failure_reasons := none }
  final_decision_node oracle.make_decision
    (security_validation_node oracle.validate_security
      (semantic_validation_node oracle.validate_semantics
        (logic_validation_node oracle.validate_logic
          (code_diff_analysis_node oracle.analyze_code_diff
            (analyze_error_node oracle.analyze_error init)))))

/-! ## `testing_node.py` and the orchestrator routing (`main_graph.py`) -/

/-- How the `validate_code_with_llm` call inside `testing_node` ends:
normally with the workflow's final state, or with one of the two
exception kinds the node catches. -/
inductive ValidateOutcome where
  | ok (result : SREState)
  | resourceExhausted (msg : String)
  | unexpectedError (msg : String)

/-- `testing_node(state)`: copy the validation verdict into the session
state; on `REJECT`, additionally increment the retry counter and build
`test_failure_reason` from the failure reasons and the full report. -/
def testing_node (outcome : ValidateOutcome) (st : SessionState) : SessionState :=
  match outcome with
  | .resourceExhausted e =>
    { st with decision := some "NEEDS_REVIEW",
              detailed_report :=
                some "Gemini API quota exhausted. LLM validation could not proceed.",
              recommendations :=
                some ["Wait for quota reset or use a different API key."],
              failure_reasons := some ["QuotaExceeded"],
              test_failure_reason :=
                some ("❌ LLM validation skipped due to Gemini quota exhaustion.\n\n" ++ e) }
  | .unexpectedError e =>
    { st with decision := some "NEEDS_REVIEW",
              detailed_report :=
                some ("LLM validation failed due to an unexpected error: " ++ e),
              recommendations :=
                some ["Check logs for error details", "Retry after fixing the error"],
              failure_reasons := some ["UnexpectedError"],
              test_failure_reason :=
                some ("❌ LLM validation failed due to: " ++ e) }
  | .ok result =>
    let updated : SessionState :=
      { st with decision := result.decision,
                detailed_report := result.detailed_report,
                recommendations := result.recommendations,
                failure_reasons := result.failure_reasons }
    if result.decision = some "REJECT" then
      let reasons := result.failure_reasons.getD []
      let summary :=
        if reasons ≠ [] then
          "REJECTED. Reasons: " ++ String.intercalate "; " reasons
        else "REJECTED. No clear reason provided."
      let full_report := result.detailed_report.getD ""
      { updated with
          retries := st.retries + 1,
          test_failure_reason :=
            some (summary ++ "\n\n--- FULL VALIDATION REPORT ---\n" ++ full_report) }
    else updated

/-- The `for filename, original_content in backup.items()` loop of
`restore_original_code`.  A write to a path in `failing` raises (for
example a permission error); the `except` arm logs and moves on, leaving
that file untouched. -/
def restore_loop (path_map : List (String × String)) (failing : List String)
    (ts : Nat) : List (String × String) → FS → FS
  | [], fs => fs
  | fc :: rest, fs =>
    match dictGet path_map fc.1 with
    | some abs_path =>
      if abs_path = "" then restore_loop path_map failing ts rest fs
      else if abs_path ∈ failing then restore_loop path_map failing ts rest fs
      else restore_loop path_map failing ts rest (dictSet fs abs_path (fc.2, ts))
    | none => restore_loop path_map failing ts rest fs

/-- `restore_original_code(state)`: write every Backup Map entry back to
its recorded absolute path, best effort. -/
def restore_original_code (failing : List String) (ts : Nat)
    (st : SessionState) (fs : FS) : FS :=
  restore_loop (st.original_code_path_map.getD []) failing ts
    (st.original_code_backup.getD []) fs

/-- `router(state)` of `main_graph.py`: the conditional edge after
`test_code`.  Returns the chosen edge (`"fix_code"` or `"END"`) together
with the state (the router increments `retries` in place before looping
back) and the filesystem (rollback happens inside the router). -/
def router (failing : List String) (ts : Nat) (st : SessionState) (fs : FS) :
    String × SessionState × FS :=
  if st.decision = some "DEPLOY" then ("END", st, fs)
  else if st.decision = some "NEEDS_REVIEW" then ("END", st, fs)
  else if 3 ≤ st.retries then ("END", st, restore_original_code failing ts st fs)
  else ("fix_code", { st with retries := st.retries + 1 }, fs)

/-- One `test_code` step of the session graph followed by its conditional
edge: `testing_node`, then `router`. -/
def validate_and_route (outcome : ValidateOutcome) (failing : List String)
    (ts : Nat) (st : SessionState) (fs : FS) : String × SessionState × FS :=
  router failing ts (testing_node outcome st) fs

/-! ## Concrete fixtures used by witnesses and counterexamples -/

/-- A minimal registry entry for synthetic tests. -/
def mkEntry (nm path content : String) (imps : List String) : FileEntry :=
  { path := path, content := content, className := stem nm, imports := imps,
    calls := [], lastModified := 0, checksum := content }

/-- The synthetic 3-file chain A→B→C: `A.java` imports `B`, `B.java`
imports `C`, no cycle. -/
def chainIndex : Registry :=
  [("A.java", mkEntry "A.java" "/proj/A.java" "" ["B"]),
   ("B.java", mkEntry "B.java" "/proj/B.java" "" ["C"]),
   ("C.java", mkEntry "C.java" "/proj/C.java" "" [])]

/-- A fresh session state, as `main_graph.py` seeds it (`retries = 1`,
no index, no backup). -/
def initialSession : SessionState :=
  { file_index := none, relevant_files := [], original_code_backup := none,
    original_code_path_map := none, test_failure_reason := none, retries := 1,
    decision := none, detailed_report := none, recommendations := none,
    failure_reasons := none, original_error := "" }

/-! ## Claim theorems -/

/-- **C6.** Fan-out performs exactly `depth` rounds of frontier expansion
over each file's `imports + calls` (symbols mapped to `<symbol>.java`,
keeping only registry members not yet visited), and each round expands
only the files newly added in the previous round (the accumulated set is
only used to filter, the recursion continues on the new frontier alone);
on the synthetic 3-file chain A→B→C, `fan_out {A}` yields `{A}` at depth
0, `{A, B}` at depth 1 and `{A, B, C}` at depth 2. -/
theorem C6_bounded_fan_out :
    (∀ (idx : Registry) (depth : Nat) (expanded frontier : Finset String),
      fanOutAux idx (depth + 1) expanded frontier =
        fanOutAux idx depth (expanded ∪ fanOutRound idx expanded frontier)
          (fanOutRound idx expanded frontier)) ∧
    (∀ (idx : Registry) (files : Finset String),
      fan_out files idx 0 = files) ∧
    fan_out {"A.java"} chainIndex 0 = {"A.java"} ∧
    fan_out {"A.java"} chainIndex 1 = {"A.java", "B.java"} ∧
    fan_out {"A.java"} chainIndex 2 = {"A.java", "B.java", "C.java"} := by
  refine ⟨fun idx depth expanded frontier => rfl,
    fun idx files => rfl, ?_, ?_, ?_⟩ <;> decide

/-- **C7.** If no stack-frame filename can be extracted from the error
text (empty seed set), localization returns the entire registry,
regardless of the depth argument. -/
theorem C7_fail_open_localization (error_text : String) (file_index : Registry)
    (depth : Nat) (h : extract_filenames_from_error error_text = ∅) :
    get_relevant_files error_text file_index depth = file_index := by
  simp [get_relevant_files, h]

/-- **C7 witness.** A concrete error text with no recognizable stack
frame selects the whole 3-file registry at depth 5. -/
theorem C7_witness :
    extract_filenames_from_error "NullPointerException: boom" = ∅ ∧
    get_relevant_files "NullPointerException: boom" chainIndex 5 = chainIndex :=
  ⟨by decide,
   C7_fail_open_localization "NullPointerException: boom" chainIndex 5 (by decide)⟩

/-- **C9.** If the oracle call inside the final aggregation stage fails,
the pipeline's result is forced to `REJECT`, with the report describing
the failure and `failure_reasons` a single system-error entry; a failing
oracle call in any of the five earlier stages instead sets that stage's
own field to an object carrying an `error` key, and the pipeline still
runs to completion. -/
theorem C9_aggregation_failure (oracle : OracleRun)
    (oc fc oe cc e : String)
    (h : oracle.make_decision = .error e) :
    (validate_code_with_llm oracle oc fc oe cc).decision = some "REJECT" ∧
    (validate_code_with_llm oracle oc fc oe cc).detailed_report =
      some ("Decision process failed: " ++ e) ∧
    (validate_code_with_llm oracle oc fc oe cc).recommendations =
      some ["Manual review required due to system failure"] ∧
    (validate_code_with_llm oracle oc fc oe cc).failure_reasons =
      some ["System error: " ++ e] ∧
    (∀ d, oracle.analyze_error = .error d →
      (validate_code_with_llm oracle oc fc oe cc).error_analysis =
        some [("error", JVal.s d)]) ∧
    (∀ d, oracle.analyze_code_diff = .error d →
      (validate_code_with_llm oracle oc fc oe cc).code_diff_analysis =
        some [("error", JVal.s d)]) ∧
    (∀ d, oracle.validate_logic = .error d →
      (validate_code_with_llm oracle oc fc oe cc).logic_validation =
        some [("error", JVal.s d)]) ∧
    (∀ d, oracle.validate_semantics = .error d →
      (validate_code_with_llm oracle oc fc oe cc).semantic_validation =
        some [("error", JVal.s d)]) ∧
    (∀ d, oracle.validate_security = .error d →
      (validate_code_with_llm oracle oc fc oe cc).security_validation =
        some [("error", JVal.s d)]) := by
  obtain ⟨o1, o2, o3, o4, o5, o6⟩ := oracle
  simp only at h
  subst h
  refine ⟨?_, ?_, ?_, ?_, ?_, ?_, ?_, ?_, ?_⟩
  · cases o1 <;> cases o2 <;> cases o3 <;> cases o4 <;> cases o5 <;>
      simp [validate_code_with_llm, analyze_error_node, code_diff_analysis_node,
        logic_validation_node, semantic_validation_node, security_validation_node,
        final_decision_node]
  · cases o1 <;> cases o2 <;> cases o3 <;> cases o4 <;> cases o5 <;>
      simp [validate_code_with_llm, analyze_error_node, code_diff_analysis_node,
        logic_validation_node, semantic_validation_node, security_validation_node,
        final_decision_node]
  · cases o1 <;> cases o2 <;> cases o3 <;> cases o4 <;> cases o5 <;>
      simp [validate_code_with_llm, analyze_error_node, code_diff_analysis_node,
        logic_validation_node, semantic_validation_node, security_validation_node,
        final_decision_node]
  · cases o1 <;> cases o2 <;> cases o3 <;> cases o4 <;> cases o5 <;>
      simp [validate_code_with_llm, analyze_error_node, code_diff_analysis_node,
        logic_validation_node, semantic_validation_node, security_validation_node,
        final_decision_node]
  · intro d hd
    simp only at hd
    subst hd
    cases o2 <;> cases o3 <;> cases o4 <;> cases o5 <;>
      simp [validate_code_with_llm, analyze_error_node, code_diff_analysis_node,
        logic_validation_node, semantic_validation_node, security_validation_node,
        final_decision_node]
  · intro d hd
    simp only at hd
    subst hd
    cases o1 <;> cases o3 <;> cases o4 <;> cases o5 <;>
      simp [validate_code_with_llm, analyze_error_node, code_diff_analysis_node,
        logic_validation_node, semantic_validation_node, security_validation_node,
        final_decision_node]
  · intro d hd
    simp only at hd
    subst hd
    cases o1 <;> cases o2 <;> cases o4 <;> cases o5 <;>
      simp [validate_code_with_llm, analyze_error_node, code_diff_analysis_node,
        logic_validation_node, semantic_validation_node, security_validation_node,
        final_decision_node]
  · intro d hd
    simp only at hd
    subst hd
    cases o1 <;> cases o2 <;> cases o3 <;> cases o5 <;>
      simp [validate_code_with_llm, analyze_error_node, code_diff_analysis_node,
        logic_validation_node, semantic_validation_node, security_validation_node,
        final_decision_node]
  · intro d hd
    simp only at hd
    subst hd
    cases o1 <;> cases o2 <;> cases o3 <;> cases o4 <;>
      simp [validate_code_with_llm, analyze_error_node, code_diff_analysis_node,
        logic_validation_node, semantic_validation_node, security_validation_node,
        final_decision_node]

/-- **C9 witness.** A concrete run whose aggregation oracle call fails
(and whose first stage also fails) is forced to `REJECT` with the
system-error failure reason, the first stage's field carrying the error
object. -/
theorem C9_witness :
    (validate_code_with_llm
      ⟨.error "stage down", .ok [], .ok [], .ok [], .ok [],
       .error "agg down"⟩ "o" "f" "e" "c").decision = some "REJECT" ∧
    (validate_code_with_llm
      ⟨.error "stage down", .ok [], .ok [], .ok [], .ok [],
       .error "agg down"⟩ "o" "f" "e" "c").failure_reasons =
      some ["System error: agg down"] ∧
    (validate_code_with_llm
      ⟨.error "stage down", .ok [], .ok [], .ok [], .ok [],
       .error "agg down"⟩ "o" "f" "e" "c").error_analysis =
      some [("error", JVal.s "stage down")] := by
  obtain ⟨h1, _, _, h4, h5, _, _, _, _⟩ :=
    C9_aggregation_failure
      ⟨.error "stage down", .ok [], .ok [], .ok [], .ok [], .error "agg down"⟩
      "o" "f" "e" "c" "agg down" rfl
  exact ⟨h1, h4, h5 "stage down" rfl⟩

/-- Running `restore_original_code`'s loop over backup entries none of
which maps to path `p` leaves `p` untouched. -/
theorem restore_loop_no_write (path_map : List (String × String))
    (failing : List String) (ts : Nat) :
    ∀ (backup : List (String × String)) (fs : FS) (p : String),
    (∀ fc ∈ backup, dictGet path_map fc.1 ≠ some p) →
    dictGet (restore_loop path_map failing ts backup fs) p = dictGet fs p := by
  intro backup
  induction backup with
  | nil => intro fs p _; rfl
  | cons fc rest ih =>
    intro fs p h
    have hrest : ∀ b ∈ rest, dictGet path_map b.1 ≠ some p :=
      fun b hb => h b (List.mem_cons_of_mem _ hb)
    simp only [restore_loop]
    cases hm : dictGet path_map fc.1 with
    | none => exact ih fs p hrest
    | some q =>
      have hq : p ≠ q := by
        intro hh
        exact h fc (List.mem_cons_self _ _) (by rw [hm, hh])
      dsimp only
      by_cases h0 : q = ""
      · simp only [h0, if_pos rfl]
        exact ih fs p hrest
      · rw [if_neg h0]
        by_cases h1 : q ∈ failing
        · rw [if_pos h1]
          exact ih fs p hrest
        · rw [if_neg h1]
          rw [ih _ p hrest, dictGet_dictSet_ne _ _ _ _ hq]

/-- If the restore targets are pairwise distinct, every Backup Map entry
whose recorded path is nonempty and whose write does not fail is restored
to its stored content — independently of failures on other files. -/
theorem restore_loop_restores (path_map : List (String × String))
    (failing : List String) (ts : Nat) :
    ∀ (backup : List (String × String)) (fs : FS) (f c p : String),
    (f, c) ∈ backup →
    dictGet path_map f = some p → p ≠ "" → p ∉ failing →
    (backup.filterMap (fun fc => dictGet path_map fc.1)).Nodup →
    dictGet (restore_loop path_map failing ts backup fs) p = some (c, ts) := by
  intro backup
  induction backup with
  | nil => intro fs f c p hmem; simp at hmem
  | cons fc rest ih =>
    intro fs f c p hmem hpm hne hfail hpaths
    rcases List.mem_cons.mp hmem with heq | hmem'
    · have hfc1 : fc.1 = f := by rw [← heq]
      have hfc2 : fc.2 = c := by rw [← heq]
      have hnowrite : ∀ b ∈ rest, dictGet path_map b.1 ≠ some p := by
        intro b hb hbp
        have hmemp : p ∈ rest.filterMap (fun fc => dictGet path_map fc.1) :=
          List.mem_filterMap.mpr ⟨b, hb, hbp⟩
        have : (fc :: rest).filterMap (fun fc => dictGet path_map fc.1) =
            p :: rest.filterMap (fun fc => dictGet path_map fc.1) := by
          simp only [List.filterMap_cons, hfc1, hpm]
        rw [this] at hpaths
        exact (List.nodup_cons.mp hpaths).1 hmemp
      simp only [restore_loop, hfc1, hpm, if_neg hne, if_neg hfail, hfc2]
      rw [restore_loop_no_write _ _ _ _ _ _ hnowrite, dictGet_dictSet_self]
    · have hptail : (rest.filterMap (fun fc => dictGet path_map fc.1)).Nodup := by
        cases hm : dictGet path_map fc.1 with
        | none => simpa [List.filterMap_cons, hm] using hpaths
        | some q => exact (List.nodup_cons.mp
            (by simpa [List.filterMap_cons, hm] using hpaths)).2
      simp only [restore_loop]
      cases hm : dictGet path_map fc.1 with
      | none => exact ih fs f c p hmem' hpm hne hfail hptail
      | some q =>
        have hqp : q ≠ p := by
          intro hh
          subst hh
          have hmemp : q ∈ rest.filterMap (fun fc => dictGet path_map fc.1) :=
            List.mem_filterMap.mpr ⟨(f, c), hmem', hpm⟩
          have : (fc :: rest).filterMap (fun fc => dictGet path_map fc.1) =
              q :: rest.filterMap (fun fc => dictGet path_map fc.1) := by
            simp only [List.filterMap_cons, hm]
          rw [this] at hpaths
          exact (List.nodup_cons.mp hpaths).1 hmemp
        dsimp only
        by_cases h0 : q = ""
        · simp only [h0, if_pos rfl]
          exact ih fs f c p hmem' hpm hne hfail hptail
        · rw [if_neg h0]
          by_cases h1 : q ∈ failing
          · rw [if_pos h1]
            exact ih fs f c p hmem' hpm hne hfail hptail
          · rw [if_neg h1]
            exact ih _ f c p hmem' hpm hne hfail hptail

/-- **C5.** When validation returns `REJECT` and the retry counter has
reached the ceiling 3, the orchestrator routes to `END` via rollback —
never back to the fixer — and every Backup Map entry with a nonempty
recorded path whose write does not fail is written back with its stored
content; a failing write on one file does not prevent the others from
being restored. -/
theorem C5_rollback_at_ceiling (result : SREState) (st : SessionState)
    (fs : FS) (failing : List String) (ts : Nat)
    (hdec : result.decision = some "REJECT")
    (hceil : 3 ≤ st.retries)
    (hpaths : ((st.original_code_backup.getD []).filterMap
      (fun fc => dictGet (st.original_code_path_map.getD []) fc.1)).Nodup) :
    (validate_and_route (.ok result) failing ts st fs).1 = "END" ∧
    (validate_and_route (.ok result) failing ts st fs).1 ≠ "fix_code" ∧
    (validate_and_route (.ok result) failing ts st fs).2.2 =
      restore_original_code failing ts (testing_node (.ok result) st) fs ∧
    (∀ f c p, (f, c) ∈ st.original_code_backup.getD [] →
      dictGet (st.original_code_path_map.getD []) f = some p →
      p ≠ "" → p ∉ failing →
      dictGet (validate_and_route (.ok result) failing ts st fs).2.2 p =
        some (c, ts)) := by
  have hstep : testing_node (.ok result) st =
      { st with decision := result.decision,
                detailed_report := result.detailed_report,
                recommendations := result.recommendations,
                failure_reasons := result.failure_reasons,
                retries := st.retries + 1,
                test_failure_reason := some
                  ((if result.failure_reasons.getD [] ≠ [] then
                      "REJECTED. Reasons: "
                        ++ String.intercalate "; " (result.failure_reasons.getD [])
                    else "REJECTED. No clear reason provided.")
                    ++ "\n\n--- FULL VALIDATION REPORT ---\n"
                    ++ result.detailed_report.getD "") } := by
    simp [testing_node, hdec]
  have hroute : validate_and_route (.ok result) failing ts st fs =
      ("END", testing_node (.ok result) st,
        restore_original_code failing ts (testing_node (.ok result) st) fs) := by
    rw [validate_and_route, router]
    rw [hstep]
    have hd : result.decision ≠ some "DEPLOY" := by rw [hdec]; simp
    have hn : result.decision ≠ some "NEEDS_REVIEW" := by rw [hdec]; simp
    rw [if_neg hd, if_neg hn, if_pos (by omega : 3 ≤ st.retries + 1)]
  refine ⟨by rw [hroute], by rw [hroute]; simp, by rw [hroute], ?_⟩
  intro f c p hmem hpm hne hfail
  rw [hroute]
  show dictGet (restore_original_code failing ts (testing_node (.ok result) st) fs) p
      = some (c, ts)
  rw [restore_original_code, hstep]
  exact restore_loop_restores _ _ _ _ _ f c p hmem hpm hne hfail hpaths

/-- A validation verdict rejecting the fix, used by witnesses. -/
def rejectVerdict : SREState :=
  { original_code := "", fixed_code := "", original_error := "",
    change_context := "", error_analysis := none, code_diff_analysis := none,
    logic_validation := none, semantic_validation := none,
    security_validation := none, decision := some "REJECT",
    detailed_report := some "full report",
    recommendations := some [],
    failure_reasons := some ["reason one", "reason two"] }

/-- A session at the retry ceiling holding a two-file Backup Map. -/
def ceilingSession : SessionState :=
  { initialSession with
      retries := 3,
      original_code_backup := some [("A.java", "origA"), ("B.java", "origB")],
      original_code_path_map :=
        some [("A.java", "/proj/A.java"), ("B.java", "/proj/B.java")] }

/-- **C5 witness.** At the ceiling with a failing write on `B.java`'s
path, the route is `END` and `A.java` is still restored to its pristine
content. -/
theorem C5_witness :
    (validate_and_route (.ok rejectVerdict) ["/proj/B.java"] 9
      ceilingSession []).1 = "END" ∧
    dictGet (validate_and_route (.ok rejectVerdict) ["/proj/B.java"] 9
      ceilingSession []).2.2 "/proj/A.java" = some ("origA", 9) := by
  obtain ⟨h1, _, _, h4⟩ := C5_rollback_at_ceiling rejectVerdict ceilingSession
    [] ["/proj/B.java"] 9 (by decide) (by decide) (by decide)
  exact ⟨h1, h4 "A.java" "origA" "/proj/A.java" (by decide) (by decide)
    (by decide) (by decide)⟩

/-- **C2 (counterexample).** A rejected attempt with the counter at 1
(the value `main_graph.py` seeds) is routed back to the fixer, but the
counter lands at 3, not 2: it is incremented twice — once by
`testing_node` and once more by the router — not "by exactly one". -/
theorem C2_counterexample :
    (validate_and_route (.ok rejectVerdict) [] 0 initialSession []).1 =
      "fix_code" ∧
    (validate_and_route (.ok rejectVerdict) [] 0 initialSession []).2.1.retries
      = 3 ∧
    ¬ ((validate_and_route (.ok rejectVerdict) [] 0 initialSession
      []).2.1.retries = initialSession.retries + 1) := by
  refine ⟨by decide, by decide, by decide⟩

/-- **C2 (amended).** For a session whose counter after `testing_node`'s
own increment is still below the ceiling, a `REJECT` verdict routes back
to the fixer with the counter incremented by exactly *two* for that
rejected attempt (once in `testing_node`, once in the router), and the
rejection's failure reasons and report are threaded verbatim into
`test_failure_reason` — the feedback note the fixer embeds in its next
prompt. -/
theorem C2_reject_routing (result : SREState) (st : SessionState) (fs : FS)
    (failing : List String) (ts : Nat)
    (hdec : result.decision = some "REJECT")
    (hlt : st.retries + 1 < 3) :
    (validate_and_route (.ok result) failing ts st fs).1 = "fix_code" ∧
    (validate_and_route (.ok result) failing ts st fs).2.1.retries =
      st.retries + 2 ∧
    (validate_and_route (.ok result) failing ts st fs).2.1.test_failure_reason
      = some ((if result.failure_reasons.getD [] ≠ [] then
            "REJECTED. Reasons: "
              ++ String.intercalate "; " (result.failure_reasons.getD [])
          else "REJECTED. No clear reason provided.")
          ++ "\n\n--- FULL VALIDATION REPORT ---\n"
          ++ result.detailed_report.getD "") ∧
    extra_note (validate_and_route (.ok result) failing ts st fs).2.1 =
      "\nNOTE FROM VALIDATION AGENT:Previous fix was rejected during automated testing.You MUST address this feedback.\n"
        ++ ((if result.failure_reasons.getD [] ≠ [] then
            "REJECTED. Reasons: "
              ++ String.intercalate "; " (result.failure_reasons.getD [])
          else "REJECTED. No clear reason provided.")
          ++ "\n\n--- FULL VALIDATION REPORT ---\n"
          ++ result.detailed_report.getD "") ++ "\n" ∧
    (validate_and_route (.ok result) failing ts st fs).2.2 = fs := by
  have hstep : testing_node (.ok result) st =
      { st with decision := result.decision,
                detailed_report := result.detailed_report,
                recommendations := result.recommendations,
                failure_reasons := result.failure_reasons,
                retries := st.retries + 1,
                test_failure_reason := some
                  ((if result.failure_reasons.getD [] ≠ [] then
                      "REJECTED. Reasons: "
                        ++ String.intercalate "; " (result.failure_reasons.getD [])
                    else "REJECTED. No clear reason provided.")
                    ++ "\n\n--- FULL VALIDATION REPORT ---\n"
                    ++ result.detailed_report.getD "") } := by
    simp [testing_node, hdec]
  have hroute : validate_and_route (.ok result) failing ts st fs =
      ("fix_code",
        { testing_node (.ok result) st with retries := st.retries + 2 }, fs) := by
    rw [validate_and_route, router, hstep]
    have hd : result.decision ≠ some "DEPLOY" := by rw [hdec]; simp
    have hn : result.decision ≠ some "NEEDS_REVIEW" := by rw [hdec]; simp
    rw [if_neg hd, if_neg hn, if_neg (by omega : ¬ 3 ≤ st.retries + 1)]
  rw [hroute, hstep]
  exact ⟨rfl, rfl, rfl, rfl, rfl⟩

/-- **C2 witness.** The amended routing behaviour at the seeded session:
route back, counter 1 → 3, feedback note containing both reasons and the
report. -/
theorem C2_witness :
    (validate_and_route (.ok rejectVerdict) [] 0 initialSession []).1 =
      "fix_code" ∧
    (validate_and_route (.ok rejectVerdict) [] 0 initialSession
      []).2.1.test_failure_reason = some
      ("REJECTED. Reasons: reason one; reason two\n\n--- FULL VALIDATION REPORT ---\nfull report") := by
  obtain ⟨h1, _, h3, _, _⟩ := C2_reject_routing rejectVerdict initialSession
    [] [] 0 (by decide) (by decide)
  exact ⟨h1, by rw [h3]; decide⟩

/-! ### C1 — the Backup Map is captured *after* the first apply -/

/-- The oracle reply patching `A.java` in the C1 scenario. -/
def c1resp : String := "FILENAME: A.java\n```java\nclass A { fixed }\n```"

/-- The single-file project of the C1 scenario, before any change. -/
def c1fs : FS := [("/proj/A.java", ("class A { original }", 0))]

/-- **C1.** On the very first repair attempt of a session, `node_fixer`
applies the oracle's fixes *before* capturing
`original_code_backup`/`original_code_path_map`, and
`apply_fixes_to_code` has already overwritten the registry entry's
content in place — so the captured "backup" holds the *fixed* content
`class A { fixed }` for the patched file, not the pristine on-disk
content `class A { original }` the file had before the automated change.
The map is indeed captured on the first attempt and keyed by filename
with the absolute path recorded, but it does not reflect the pre-change
state. -/
theorem C1_backup_not_pristine :
    fsContent c1fs "/proj/A.java" = some "class A { original }" ∧
    (node_fixer (fun s => s) c1resp "boom" ["/proj/A.java"] 7 initialSession
      c1fs).map (fun r =>
        (r.1.original_code_backup, r.1.original_code_path_map,
         fsContent r.2 "/proj/A.java")) =
      .ok (some [("A.java", "class A { fixed }")],
           some [("A.java", "/proj/A.java")],
           some "class A { fixed }") ∧
    ("class A { fixed }" : String) ≠ "class A { original }" := by
  refine ⟨by decide, by decide, by decide⟩

/-! ### C4, C3, C8, C10 — Patch Applicator claims -/

theorem takeWhile_all {α : Type} (p : α → Bool) (l : List α)
    (h : ∀ x ∈ l, p x = true) : l.takeWhile p = l := by
  induction l with
  | nil => rfl
  | cons a l ih =>
    simp [List.takeWhile_cons, h a (List.mem_cons_self a l),
      ih (fun x hx => h x (List.mem_cons_of_mem a hx))]

theorem dropWhile_all {α : Type} (p : α → Bool) (l : List α)
    (h : ∀ x ∈ l, p x = true) : l.dropWhile p = [] := by
  induction l with
  | nil => rfl
  | cons a l ih =>
    simp [List.dropWhile_cons, h a (List.mem_cons_self a l),
      ih (fun x hx => h x (List.mem_cons_of_mem a hx))]

theorem applyLoop_nil (md5 : String → String) (src : Registry) (ts fuel : Nat)
    (cur : Option String) (st : ApplyState) :
    applyLoop md5 src ts fuel [] cur st = .ok st := by
  cases fuel <;> rfl

/-- A backup path is strictly longer than the path it snapshots, so the
two never collide. -/
theorem backupName_ne (p : String) (ts : Nat) : backupName p ts ≠ p := by
  intro h
  have hlen := congrArg String.length h
  rw [backupName] at hlen
  rw [String.length_append, String.length_append] at hlen
  have h8 : (".backup_" : String).length = 8 := rfl
  omega

/-- **C4.** Applying any response text to a working set whose keys are
registry keys and whose paths are on disk never raises; the registry's
key list (hence its size) is unchanged, and the only files that can
appear on disk beyond the existing ones are the timestamped backups of
working-set paths — a block naming any other file is dropped without
creating it. -/
theorem C4_no_new_files (md5 : String → String) (resp : String)
    (src idx : Registry) (fs : FS) (ts : Nat)
    (hkeys : ∀ ke ∈ src, ke.1 ∈ dictKeys idx)
    (hpaths : ∀ ke ∈ src, ke.2.path ∈ dictKeys fs) :
    ∃ st', apply_fixes_to_code md5 resp src idx fs ts = .ok st' ∧
      dictKeys st'.fileIndex = dictKeys idx ∧
      (dictKeys st'.fileIndex).length = (dictKeys idx).length ∧
      (∀ p ∈ dictKeys st'.fs,
        p ∈ dictKeys fs ∨ ∃ ke ∈ src, p = backupName ke.2.path ts) := by
  have hready : ∀ a ∈ patchActions src (pySplit '\n' resp).length
      (pySplit '\n' resp) none,
      a.key ∈ dictKeys (⟨idx, fs⟩ : ApplyState).fileIndex ∧
      a.path ∈ dictKeys (⟨idx, fs⟩ : ApplyState).fs := by
    intro a ha
    obtain ⟨ke, hke, hk, hp⟩ := patchActions_mem src _ _ _ a ha
    exact ⟨by rw [hk]; exact hkeys ke hke, by rw [hp]; exact hpaths ke hke⟩
  obtain ⟨st', h1, h2, _, h4⟩ := execActs_ok md5 ts _ ⟨idx, fs⟩ hready
  refine ⟨st', ?_, h2, by rw [h2], ?_⟩
  · simp only [apply_fixes_to_code]
    rw [applyLoop_eq_execActs]
    exact h1
  · intro p hp
    rcases h4 p hp with h | ⟨a, ha, hpa⟩
    · exact Or.inl h
    · obtain ⟨ke, hke, _, hpe⟩ := patchActions_mem src _ _ _ a ha
      exact Or.inr ⟨ke, hke, by rw [hpa, hpe]⟩

/-- A one-file project whose single source imports `B`. -/
def c3fs : FS := [("/proj/A.java", ("import B;\nclass A {}", 0))]

/-- Its registry, derived by the code's own `build_file_index`. -/
def c3idx : Registry := build_file_index (fun s => s) c3fs ["/proj/A.java"]

/-- A patch replacing `A.java` with content whose import list differs. -/
def c3resp : String := "FILENAME: A.java\n```java\nimport C;\nclass A {}\n```"

/-- A response with one block for an unknown file and one for `A.java`. -/
def c4resp : String :=
  "FILENAME: Zed.java\n```java\nclass Zed {}\n```\nFILENAME: A.java\n```java\nclass A2 {}\n```"

/-- **C4 witness.** The concrete response naming the unknown `Zed.java`
applies without error and leaves the one-key registry at one key. -/
theorem C4_witness :
    ∃ st', apply_fixes_to_code (fun s => s) c4resp c3idx c3idx c3fs 3 =
        .ok st' ∧
      dictKeys st'.fileIndex = dictKeys c3idx ∧
      (dictKeys st'.fileIndex).length = (dictKeys c3idx).length ∧
      (∀ p ∈ dictKeys st'.fs,
        p ∈ dictKeys c3fs ∨ ∃ ke ∈ c3idx, p = backupName ke.2.path 3) :=
  C4_no_new_files (fun s => s) c4resp c3idx c3idx c3fs 3
    (by decide) (by decide)

/-- **C3 (counterexample).** Applying a patch whose new content imports
`C` leaves the registry entry's `imports` at the old `["B"]` — not the
`["C"]` that rebuilding from the new content would give.  (Content and
checksum are updated from the new content; `imports`, `calls` and the
declared class are not.)  The claim's "rebuilt in full" is false. -/
theorem C3_counterexample :
    (apply_fixes_to_code (fun s => s) c3resp c3idx c3idx c3fs 1).map
      (fun st => (dictGet st.fileIndex "A.java").map
        (fun e => (e.content, e.imports, e.checksum))) =
      .ok (some ("import C;\nclass A {}", ["B"], "import C;\nclass A {}")) ∧
    importsOf "import C;\nclass A {}" = ["C"] ∧
    (["B"] : List String) ≠ ["C"] := by
  refine ⟨by decide, by decide, by decide⟩

/-- **C3 (amended).** When a patch block is matched and applied, the
file's registry entry is updated *in place*: `content` becomes the new
content, `lastModified` the write time, and `checksum` the hash of the
new content, while `imports`, `calls` and the declared class name are
retained unchanged from the previous entry — a partial update, not a full
rebuild.  (Each key's entry reflects the last block that updated it;
unmatched keys are untouched.) -/
theorem C3_partial_entry_update (md5 : String → String) (resp : String)
    (src idx : Registry) (fs : FS) (ts : Nat)
    (hkeys : ∀ ke ∈ src, ke.1 ∈ dictKeys idx)
    (hpaths : ∀ ke ∈ src, ke.2.path ∈ dictKeys fs) :
    ∃ st', apply_fixes_to_code md5 resp src idx fs ts = .ok st' ∧
      ∀ k, dictGet st'.fileIndex k =
        match lastUpd (patchActions src (pySplit '\n' resp).length
            (pySplit '\n' resp) none) k with
        | some c => (dictGet idx k).map (fun old =>
            { old with content := c, lastModified := ts, checksum := md5 c })
        | none => dictGet idx k := by
  have hready : ∀ a ∈ patchActions src (pySplit '\n' resp).length
      (pySplit '\n' resp) none,
      a.key ∈ dictKeys (⟨idx, fs⟩ : ApplyState).fileIndex ∧
      a.path ∈ dictKeys (⟨idx, fs⟩ : ApplyState).fs := by
    intro a ha
    obtain ⟨ke, hke, hk, hp⟩ := patchActions_mem src _ _ _ a ha
    exact ⟨by rw [hk]; exact hkeys ke hke, by rw [hp]; exact hpaths ke hke⟩
  obtain ⟨st', h1, _, _, _⟩ := execActs_ok md5 ts _ ⟨idx, fs⟩ hready
  refine ⟨st', ?_, ?_⟩
  · simp only [apply_fixes_to_code]
    rw [applyLoop_eq_execActs]
    exact h1
  · intro k
    exact execActs_idx_char md5 ts _ ⟨idx, fs⟩ st' h1 k

/-- **C3 witness.** The amended update rule at the concrete one-file
project and patch. -/
theorem C3_witness :
    ∃ st', apply_fixes_to_code (fun s => s) c3resp c3idx c3idx c3fs 1 =
        .ok st' ∧
      ∀ k, dictGet st'.fileIndex k =
        match lastUpd (patchActions c3idx (pySplit '\n' c3resp).length
            (pySplit '\n' c3resp) none) k with
        | some c => (dictGet c3idx k).map (fun old =>
            { old with content := c, lastModified := 1, checksum := c })
        | none => dictGet c3idx k :=
  C3_partial_entry_update (fun s => s) c3resp c3idx c3idx c3fs 1
    (by decide) (by decide)

/-- The entry fields that survive a retry, with the write timestamp
cleared. -/
def scrubMtime (e : FileEntry) : FileEntry := { e with lastModified := 0 }

/-- **C8 (counterexample).** Applying the same response a second time,
from the state the first application produced, yields the same file
content but *not* an identical registry: the matched entry's
`last_modified` carries the second write's timestamp. -/
theorem C8_counterexample :
    (apply_fixes_to_code (fun s => s) c3resp c3idx c3idx c3fs 1).bind
      (fun st1 => (apply_fixes_to_code (fun s => s) c3resp c3idx
          st1.fileIndex st1.fs 2).map
        (fun st2 => (decide (st1.fileIndex = st2.fileIndex),
                     decide (fsContent st1.fs "/proj/A.java" =
                             fsContent st2.fs "/proj/A.java")))) =
      .ok (false, true) := by
  decide

/-- **C8 (amended).** Patch application is idempotent up to timestamps:
re-applying the same response to the registry and files produced by the
first application leaves every file's *content* unchanged (the second
run only adds its own backup snapshots), and leaves the registry
identical except for the matched entries' `last_modified` field. -/
theorem C8_idempotent_content (md5 : String → String) (resp : String)
    (src idx : Registry) (fs : FS) (ts1 ts2 : Nat)
    (hkeys : ∀ ke ∈ src, ke.1 ∈ dictKeys idx)
    (hpaths : ∀ ke ∈ src, ke.2.path ∈ dictKeys fs)
    (hfresh : ∀ ke ∈ src, ∀ ke2 ∈ src,
      ke.2.path ≠ backupName ke2.2.path ts1) :
    ∃ st1 st2,
      apply_fixes_to_code md5 resp src idx fs ts1 = .ok st1 ∧
      apply_fixes_to_code md5 resp src st1.fileIndex st1.fs ts2 = .ok st2 ∧
      (∀ p, (∀ ke ∈ src, p ≠ backupName ke.2.path ts2) →
        fsContent st2.fs p = fsContent st1.fs p) ∧
      (∀ k, (dictGet st2.fileIndex k).map scrubMtime =
            (dictGet st1.fileIndex k).map scrubMtime) := by
  have hmemA := patchActions_mem src (pySplit '\n' resp).length
    (pySplit '\n' resp) none
  have hready1 : ∀ a ∈ patchActions src (pySplit '\n' resp).length
      (pySplit '\n' resp) none,
      a.key ∈ dictKeys (⟨idx, fs⟩ : ApplyState).fileIndex ∧
      a.path ∈ dictKeys (⟨idx, fs⟩ : ApplyState).fs := by
    intro a ha
    obtain ⟨ke, hke, hk, hp⟩ := hmemA a ha
    exact ⟨by rw [hk]; exact hkeys ke hke, by rw [hp]; exact hpaths ke hke⟩
  obtain ⟨st1, hrun1, hk1, hgrow1, _⟩ := execActs_ok md5 ts1 _ ⟨idx, fs⟩ hready1
  have hready2 : ∀ a ∈ patchActions src (pySplit '\n' resp).length
      (pySplit '\n' resp) none,
      a.key ∈ dictKeys st1.fileIndex ∧ a.path ∈ dictKeys st1.fs := by
    intro a ha
    obtain ⟨h1, h2⟩ := hready1 a ha
    exact ⟨by rw [hk1]; exact h1, hgrow1 _ h2⟩
  obtain ⟨st2, hrun2, _, _, _⟩ := execActs_ok md5 ts2 _ st1 hready2
  refine ⟨st1, st2, ?_, ?_, ?_, ?_⟩
  · simp only [apply_fixes_to_code]
    rw [applyLoop_eq_execActs]
    exact hrun1
  · simp only [apply_fixes_to_code]
    rw [applyLoop_eq_execActs]
    exact hrun2
  · intro p hp2
    have hnb2 : ∀ a ∈ patchActions src (pySplit '\n' resp).length
        (pySplit '\n' resp) none, p ≠ backupName a.path ts2 := by
      intro a ha
      obtain ⟨ke, hke, _, hpe⟩ := hmemA a ha
      rw [hpe]
      exact hp2 ke hke
    have hchar2 := execActs_fs_char md5 ts2 _ st1 st2 hrun2 p hnb2
    cases hlw : lastWrite (patchActions src (pySplit '\n' resp).length
        (pySplit '\n' resp) none) p with
    | some c =>
      rw [hlw] at hchar2
      obtain ⟨a0, ha0, ha0p⟩ := lastWrite_mem _ p c hlw
      obtain ⟨ke0, hke0, _, hpe0⟩ := hmemA a0 ha0
      have hnb1 : ∀ a ∈ patchActions src (pySplit '\n' resp).length
          (pySplit '\n' resp) none, p ≠ backupName a.path ts1 := by
        intro a ha
        obtain ⟨ke, hke, _, hpe⟩ := hmemA a ha
        rw [← ha0p, hpe0, hpe]
        exact hfresh ke0 hke0 ke hke
      have hchar1 := execActs_fs_char md5 ts1 _ ⟨idx, fs⟩ st1 hrun1 p hnb1
      rw [hlw] at hchar1
      simp [fsContent, hchar1, hchar2]
    | none =>
      rw [hlw] at hchar2
      simp [fsContent, hchar2]
  · intro k
    have hidx2 := execActs_idx_char md5 ts2 _ st1 st2 hrun2 k
    have hidx1 := execActs_idx_char md5 ts1 _ ⟨idx, fs⟩ st1 hrun1 k
    cases hlu : lastUpd (patchActions src (pySplit '\n' resp).length
        (pySplit '\n' resp) none) k with
    | none =>
      rw [hlu] at hidx2
      rw [hidx2]
    | some c =>
      rw [hlu] at hidx1 hidx2
      rw [hidx2, hidx1]
      cases dictGet idx k with
      | none => rfl
      | some old => rfl

/-- **C8 witness.** The amended idempotence at the concrete one-file
project: both applications succeed, the file's content after the second
equals the content after the first, and the registries agree after
clearing timestamps. -/
theorem C8_witness :
    ∃ st1 st2,
      apply_fixes_to_code (fun s => s) c3resp c3idx c3idx c3fs 1 = .ok st1 ∧
      apply_fixes_to_code (fun s => s) c3resp c3idx st1.fileIndex st1.fs 2 =
        .ok st2 ∧
      (∀ p, (∀ ke ∈ c3idx, p ≠ backupName ke.2.path 2) →
        fsContent st2.fs p = fsContent st1.fs p) ∧
      (∀ k, (dictGet st2.fileIndex k).map scrubMtime =
            (dictGet st1.fileIndex k).map scrubMtime) :=
  C8_idempotent_content (fun s => s) c3resp c3idx c3idx c3fs 1 2
    (by decide) (by decide) (by decide)

/-- The `Foo.java` project of the C10 scenario. -/
def c10entry : FileEntry :=
  mkEntry "Foo.java" "/proj/Foo.java" "class Foo { original }" []

/-- Its one-entry working set / registry. -/
def c10src : Registry := [("Foo.java", c10entry)]

/-- Its filesystem. -/
def c10fs : FS := [("/proj/Foo.java", ("class Foo { original }", 0))]

/-- **C10.** A bare `Foo.java` line (no `FILENAME:` prefix) acts as a
filename marker; and when the closing fence is missing, the block is
still applied: every remaining line of the response becomes the matched
file's new content, the backup snapshot of the old content is still
created, the registry entry is updated, and no error is raised. -/
theorem C10_unclosed_fence (md5 : String → String) (ts : Nat)
    (resp : String) (ls : List String)
    (hsplit : pySplit '\n' resp = "Foo.java" :: "```java" :: ls)
    (hls : ∀ l ∈ ls, pyStartsWith (pyStrip l) "```" = false) :
    ∃ st', apply_fixes_to_code md5 resp c10src c10src c10fs ts = .ok st' ∧
      fsContent st'.fs "/proj/Foo.java" = some (String.intercalate "\n" ls) ∧
      dictGet st'.fs (backupName "/proj/Foo.java" ts) =
        some ("class Foo { original }", 0) ∧
      (dictGet st'.fileIndex "Foo.java").map (fun e => e.content) =
        some (String.intercalate "\n" ls) := by
  have htake : ls.takeWhile (fun l2 => !(pyStartsWith (pyStrip l2) "```")) = ls :=
    takeWhile_all _ ls (fun x hx => by rw [hls x hx]; rfl)
  have hdrop : ls.dropWhile (fun l2 => !(pyStartsWith (pyStrip l2) "```")) = [] :=
    dropWhile_all _ ls (fun x hx => by rw [hls x hx]; rfl)
  simp only [apply_fixes_to_code]
  rw [hsplit]
  simp only [List.length_cons, applyLoop]
  rw [if_pos (by decide : (pyStartsWith (pyStrip "Foo.java") "FILENAME:" ||
    pyEndsWith (pyStrip "Foo.java") ".java") = true)]
  rw [if_neg (by decide : ¬ ((pyStartsWith (pyStrip "```java") "FILENAME:" ||
    pyEndsWith (pyStrip "```java") ".java") = true))]
  rw [if_pos (by decide : pyStartsWith (pyStrip "```java") "```" = true)]
  rw [htake, hdrop]
  rw [show List.find? (fun p => pyLower (basename p.1) ==
        pyLower (basename (markerName (pyStrip "Foo.java")))) c10src =
      some ("Foo.java", c10entry) from rfl]
  dsimp only
  rw [show dictGet c10fs c10entry.path = some ("class Foo { original }", 0)
    from rfl]
  rw [show dictGet c10src "Foo.java" = some c10entry from rfl]
  dsimp only
  simp only [List.drop_nil]
  rw [applyLoop_nil]
  refine ⟨_, rfl, ?_, ?_, ?_⟩
  · rw [show c10entry.path = "/proj/Foo.java" from rfl]
    simp [fsContent, dictGet_dictSet_self]
  · have hne : backupName "/proj/Foo.java" ts ≠ "/proj/Foo.java" :=
      backupName_ne _ _
    rw [show c10entry.path = "/proj/Foo.java" from rfl]
    rw [dictGet_dictSet_ne _ _ _ _ hne, dictGet_dictSet_self]
  · rw [dictGet_dictSet_self]
    rfl

/-- **C10 witness.** A concrete reply whose code block never closes:
the two remaining lines become `Foo.java`'s content, the backup is
created, and application succeeds. -/
theorem C10_witness :
    ∃ st', apply_fixes_to_code (fun s => s)
        "Foo.java\n```java\nnew line one\nnew line two" c10src c10src c10fs 4 =
        .ok st' ∧
      fsContent st'.fs "/proj/Foo.java" =
        some (String.intercalate "\n" ["new line one", "new line two"]) ∧
      dictGet st'.fs (backupName "/proj/Foo.java" 4) =
        some ("class Foo { original }", 0) ∧
      (dictGet st'.fileIndex "Foo.java").map (fun e => e.content) =
        some (String.intercalate "\n" ["new line one", "new line two"]) :=
  C10_unclosed_fence (fun s => s) 4 "Foo.java\n```java\nnew line one\nnew line two"
    ["new line one", "new line two"] (by decide) (by decide)

end AutoFix
